import Mathlib

/-!
Shallow embedding of the credential-lifecycle core of `auth-service-go`.

Sources embedded:
* `internal/domain/entity/user.go` (User, lockout helpers)
* `internal/domain/entity/refresh_token.go` (RefreshToken, IsValid, Revoke)
* `internal/domain/entity/audit_log.go` (AuditLog, AddMetadata)
* `internal/infrastructure/security/password_service.go` (ValidateStrength)
* `internal/infrastructure/security/jwt_service.go` (GenerateRefreshToken, HashToken)
* `internal/infrastructure/persistence/postgres/{user,refresh_token}_repository.go`
  (modelled as an in-memory reference store with the same observable behaviour:
  lookups are first-match on the row list, the unique index on the refresh-token
  hash column makes duplicate-hash inserts fail, `UPDATE ... WHERE` updates every
  matching row)
* `internal/application/usecase/auth_usecase.go` (Login, RefreshToken, LogoutAll,
  ChangePassword)

Modelling conventions:
* time is `Nat`; Go's `time.Now().After(t)` is `now > t` (strict);
  each orchestrator call receives a single `now`.
* UUIDs are `Nat`; `uuid.Nil` (the zero value of `entity.User{}.ID`) is `0`;
  the `uuid.Parse` gate at the orchestrator boundary is modelled by an
  `Option Nat` argument (`none` = malformed identifier string).
* external cryptographic primitives (bcrypt, SHA-256) are opaque deterministic
  stand-ins preserving their contracts (determinism; compare succeeds exactly
  on the hash generated from the same plaintext).
* `rand.Read` is modelled by passing the random bytes as an argument; fresh
  entity ids from `uuid.NewV7` are likewise arguments.
* repository failures of `userRepo.Update` are injected through an explicit
  `updateFails` flag, because `Login` deliberately discards that error on the
  failed-password path and propagates it on the success path.
-/

/-- Errors from `internal/domain/error/errors.go` (only the kinds the embedded
operations can produce). -/
inductive AuthErr where
  | UserNotFound
  | UserAlreadyExists
  | InvalidCredentials
  | AccountLocked
  | InvalidPassword
  | WeakPassword
  | InvalidToken
  | TokenExpired
  | TokenRevoked
  | MissingToken
  | InvalidInput
  | DatabaseOperation
  deriving Repr, DecidableEq

/-- Audit action vocabulary from `entity/audit_log.go`. -/
inductive AuditAction where
  | register
  | login
  | loginFailed
  | logout
  | passwordChange
  | passwordReset
  | emailVerification
  | tokenRefresh
  | accountLocked
  deriving Repr, DecidableEq

/-- Values storable in `AuditLog.Metadata` (`map[string]interface{}`); the
orchestrator only ever stores strings and booleans. -/
inductive MetaValue where
  | str (s : String)
  | bool (b : Bool)
  deriving Repr, DecidableEq

/-- `entity.User`. -/
structure UserE where
  id : Nat
  email : String
  passwordHash : String
  isVerified : Bool
  isLocked : Bool
  failedLoginAttempts : Nat
  lockedUntil : Option Nat
  lastLoginAt : Option Nat
  lastLoginIP : String
  createdAt : Nat
  updatedAt : Nat
  deriving Repr, DecidableEq

/-- `entity.RefreshToken`. -/
structure RefreshTokenE where
  id : Nat
  userID : Nat
  tokenHash : String
  expiresAt : Nat
  isRevoked : Bool
  createdAt : Nat
  updatedAt : Nat
  deriving Repr, DecidableEq

/-- `entity.AuditLog`. -/
structure AuditLogE where
  id : Nat
  userID : Nat
  action : AuditAction
  ipAddress : String
  userAgent : String
  metadata : List (String × MetaValue)
  createdAt : Nat
  deriving Repr, DecidableEq

/-- Stand-in for `bcrypt.GenerateFromPassword`: an opaque deterministic one-way
function of the plaintext. -/
def bcryptHash (password : String) : String :=
  "bcrypt$" ++ password

/-- `User.VerifyPassword`: `bcrypt.CompareHashAndPassword` succeeds exactly when
the stored hash was generated from the presented plaintext. -/
def UserE.verifyPassword (u : UserE) (password : String) : Bool :=
  u.passwordHash == bcryptHash password

/-- `User.IsAccountLocked` (user.go:55-63): not locked when the flag is clear;
a set `lockedUntil` strictly in the past also reports unlocked (lazy clear). -/
def UserE.isAccountLocked (u : UserE) (now : Nat) : Bool :=
  if !u.isLocked then
    false
  else
    match u.lockedUntil with
    | some t => if now > t then false else true
    | none => true

/-- `User.IncrementFailedLoginAttempts` (user.go:65-72). -/
def UserE.incrementFailedLoginAttempts (u : UserE) (maxAttempts : Nat)
    (lockDuration : Nat) (now : Nat) : UserE :=
  let u := { u with failedLoginAttempts := u.failedLoginAttempts + 1 }
  if u.failedLoginAttempts ≥ maxAttempts then
    { u with isLocked := true, lockedUntil := some (now + lockDuration) }
  else
    u

/-- `User.ResetFailedLoginAttempts` (user.go:74-78). -/
def UserE.resetFailedLoginAttempts (u : UserE) : UserE :=
  { u with failedLoginAttempts := 0, isLocked := false, lockedUntil := none }

/-- `User.UpdateLastLogin` (user.go:80-84). -/
def UserE.updateLastLogin (u : UserE) (ipAddress : String) (now : Nat) : UserE :=
  { u with lastLoginAt := some now, lastLoginIP := ipAddress }

/-- `User.ChangePassword` (user.go:86-94). -/
def UserE.changePassword (u : UserE) (newPassword : String) (now : Nat) : UserE :=
  { u with passwordHash := bcryptHash newPassword, updatedAt := now }

/-- `entity.NewRefreshToken`. -/
def newRefreshToken (id userID : Nat) (tokenHash : String) (ttl now : Nat) :
    RefreshTokenE :=
  { id := id, userID := userID, tokenHash := tokenHash,
    expiresAt := now + ttl, isRevoked := false, createdAt := now, updatedAt := now }

/-- `RefreshToken.IsValid` (refresh_token.go:32-40): valid iff not revoked and
`now` is not strictly after `expiresAt`. -/
def RefreshTokenE.isValid (rt : RefreshTokenE) (now : Nat) : Bool :=
  if rt.isRevoked then
    false
  else if now > rt.expiresAt then
    false
  else
    true

/-- `entity.NewAuditLog`. -/
def newAuditLog (id userID : Nat) (action : AuditAction)
    (ipAddress userAgent : String) (now : Nat) : AuditLogE :=
  { id := id, userID := userID, action := action, ipAddress := ipAddress,
    userAgent := userAgent, metadata := [], createdAt := now }

/-- `AuditLog.AddMetadata`. -/
def AuditLogE.addMetadata (a : AuditLogE) (key : String) (value : MetaValue) :
    AuditLogE :=
  { a with metadata := a.metadata ++ [(key, value)] }

/-- Base64 alphabet of `encoding/base64.RawURLEncoding` (`A-Z a-z 0-9 - _`). -/
def b64URLChar (n : Nat) : Char :=
  if n < 26 then Char.ofNat (65 + n)
  else if n < 52 then Char.ofNat (97 + (n - 26))
  else if n < 62 then Char.ofNat (48 + (n - 52))
  else if n = 62 then '-'
  else '_'

/-- `base64.RawURLEncoding.EncodeToString`: unpadded URL-safe base64 of a byte
sequence (bytes as `Nat` < 256). -/
def b64RawURLEncode : List Nat → List Char
  | [] => []
  | [a] => [b64URLChar (a / 4), b64URLChar (a % 4 * 16)]
  | [a, b] => [b64URLChar (a / 4), b64URLChar (a % 4 * 16 + b / 16),
               b64URLChar (b % 16 * 4)]
  | a :: b :: c :: rest =>
      b64URLChar (a / 4) :: b64URLChar (a % 4 * 16 + b / 16) ::
      b64URLChar (b % 16 * 4 + c / 64) :: b64URLChar (c % 64) ::
      b64RawURLEncode rest

/-- `JWTService.HashToken` (jwt_service.go:47-50): SHA-256 digest of the
plaintext, base64url-encoded. The SHA-256 primitive is an external library
(`crypto/sha256`); it is modelled as an opaque deterministic tag of the input,
preserving that `HashToken` is a pure deterministic function of the plaintext. -/
def hashToken (plain : String) : String :=
  "sha256b64$" ++ plain

/-- `JWTService.GenerateRefreshToken` (jwt_service.go:36-45): the plaintext is
the base64url encoding of 32 random bytes (`randomBytes` passed explicitly, as
the model of `crypto/rand.Read`); the returned hash is `HashToken` of that
plaintext. -/
def generateRefreshToken (randomBytes : List Nat) : String × String :=
  let plain := String.mk (b64RawURLEncode randomBytes)
  (plain, hashToken plain)

/-- `JWTService.GenerateAccessToken`: an external JWT signing operation; modelled
as a total deterministic function of the user id (its internals are irrelevant
to the embedded claims). -/
def generateAccessToken (userID : Nat) : String :=
  "jwt$" ++ toString userID

/-- The durable state behind the three repository interfaces: the `users`,
`refresh_tokens` and `audit_logs` tables, each a row list. -/
structure Store where
  users : List UserE
  refreshTokens : List RefreshTokenE
  auditLogs : List AuditLogE
  deriving Repr, DecidableEq

/-- `UserRepository.FindByEmail`: `WHERE email = ? ... First`. -/
def Store.findByEmail (st : Store) (email : String) : Option UserE :=
  st.users.find? (fun u => u.email == email)

/-- `UserRepository.FindByID`: `WHERE id = ? ... First`. -/
def Store.findByID (st : Store) (id : Nat) : Option UserE :=
  st.users.find? (fun u => u.id == id)

/-- `UserRepository.Update` (`Save`): replaces the row with the user's id. -/
def Store.updateUser (st : Store) (user : UserE) : Store :=
  { st with users := st.users.map (fun u => if u.id == user.id then user else u) }

/-- `RefreshTokenRepository.FindByTokenHash`: `WHERE token = ? ... First`. -/
def Store.findByTokenHash (st : Store) (tokenHash : String) :
    Option RefreshTokenE :=
  st.refreshTokens.find? (fun t => t.tokenHash == tokenHash)

/-- `RefreshTokenRepository.Create`: the `token` column carries a unique index,
so inserting a row whose hash is already present fails with
`ErrDatabaseOperation`. -/
def Store.createRefreshToken (st : Store) (tok : RefreshTokenE) :
    Except AuthErr Store :=
  if st.refreshTokens.any (fun t => t.tokenHash == tok.tokenHash) then
    .error .DatabaseOperation
  else
    .ok { st with refreshTokens := st.refreshTokens ++ [tok] }

/-- `RefreshTokenRepository.RevokeByTokenHash`:
`UPDATE ... SET revoked = true WHERE token = ? AND revoked = FALSE`. -/
def Store.revokeByTokenHash (st : Store) (tokenHash : String) : Store :=
  { st with refreshTokens := st.refreshTokens.map (fun t =>
      if t.tokenHash == tokenHash && !t.isRevoked then
        { t with isRevoked := true }
      else t) }

/-- `RefreshTokenRepository.RevokeAllByUserID`:
`UPDATE ... SET revoked = true WHERE user_id = ? AND revoked = FALSE`. -/
def Store.revokeAllByUserID (st : Store) (userID : Nat) : Store :=
  { st with refreshTokens := st.refreshTokens.map (fun t =>
      if t.userID == userID && !t.isRevoked then
        { t with isRevoked := true }
      else t) }

/-- `AuditLogRepository.Create`: append-only; the orchestrator always discards
its error, so the model makes it total. -/
def Store.appendAudit (st : Store) (log : AuditLogE) : Store :=
  { st with auditLogs := st.auditLogs ++ [log] }

/-- `usecase.AuthConfig` (durations in seconds). -/
structure AuthConfig where
  accessTokenTTL : Nat
  refreshTokenTTL : Nat
  maxLoginAttempts : Nat
  accountLockDuration : Nat
  deriving Repr, DecidableEq

/-- `dto.UserDTO` as populated by `Login` (jwt claims of the profile). -/
structure UserDTO where
  id : Nat
  email : String
  isVerified : Bool
  createdAt : Nat
  deriving Repr, DecidableEq

/-- `dto.LoginResponse`. -/
structure LoginResponse where
  accessToken : String
  refreshToken : String
  tokenType : String
  expiresIn : Nat
  user : UserDTO
  deriving Repr, DecidableEq

/-- `dto.RefreshTokenResponse`. -/
structure RefreshTokenResponse where
  accessToken : String
  refreshToken : String
  tokenType : String
  expiresIn : Nat
  deriving Repr, DecidableEq

/-- ASCII case folding (`A`-`Z` to lower case); Go's `(?i)` regex flag on the
all-ASCII deny-list literals reduces to this folding on both pattern and input. -/
def toLowerAscii (c : Char) : Char :=
  if 'A' ≤ c && c ≤ 'Z' then Char.ofNat (c.toNat + 32) else c

/-- `needle` is a prefix of `hay` (character lists). -/
def beginsWith : List Char → List Char → Bool
  | [], _ => true
  | _ :: _, [] => false
  | n :: ns, h :: hs => n == h && beginsWith ns hs

/-- `needle` occurs as a contiguous substring of `hay`. -/
def containsSub (needle : List Char) : List Char → Bool
  | [] => beginsWith needle []
  | h :: hs => beginsWith needle (h :: hs) || containsSub needle hs

/-- `regexp.MatchString("(?i)" + needle, hay)` for a metacharacter-free ASCII
`needle`: case-insensitive substring containment. -/
def containsCI (needle hay : String) : Bool :=
  containsSub (needle.data.map toLowerAscii) (hay.data.map toLowerAscii)

/-- The hard-coded deny-list of `PasswordService.ValidateStrength`. -/
def commonPasswords : List String :=
  ["password", "12345678", "qwerty", "abc123", "password123"]

/-- The rune classifiers of Go's `unicode` package (`IsUpper`, `IsLower`,
`IsNumber`, `IsPunct`, `IsSymbol`), abstracted: their Unicode tables are
external to the repository. In Go they test the pairwise-disjoint general
categories Lu, Ll, N, P and S respectively. -/
structure CharClassifiers where
  isUpper : Char → Bool
  isLower : Char → Bool
  isNumber : Char → Bool
  isPunct : Char → Bool
  isSymbol : Char → Bool

/-- The four character-class flags accumulated by the scan loop of
`ValidateStrength`. -/
structure StrengthFlags where
  hasUpper : Bool
  hasLower : Bool
  hasNumber : Bool
  hasSpecial : Bool
  deriving Repr, DecidableEq

/-- The `for _, char := range password` loop of `ValidateStrength` with Go's
first-matching-case `switch` semantics. -/
def scanFlags (cls : CharClassifiers) : List Char → StrengthFlags
  | [] => ⟨false, false, false, false⟩
  | c :: rest =>
    let f := scanFlags cls rest
    if cls.isUpper c then { f with hasUpper := true }
    else if cls.isLower c then { f with hasLower := true }
    else if cls.isNumber c then { f with hasNumber := true }
    else if cls.isPunct c || cls.isSymbol c then { f with hasSpecial := true }
    else f

/-- `PasswordService.ValidateStrength` (password_service.go:28-76) with the
production configuration of `NewPasswordService` (minLength 8, all four class
requirements on): `none` means the password is acceptable, `some WeakPassword`
otherwise. Go's `len(password)` is the UTF-8 byte length. -/
def validateStrength (cls : CharClassifiers) (password : String) :
    Option AuthErr :=
  if password.utf8ByteSize < 8 then some .WeakPassword
  else
    let f := scanFlags cls password.data
    if !f.hasUpper then some .WeakPassword
    else if !f.hasLower then some .WeakPassword
    else if !f.hasNumber then some .WeakPassword
    else if !f.hasSpecial then some .WeakPassword
    else if commonPasswords.any (fun c => containsCI c password) then
      some .WeakPassword
    else none

/-- The password-strength rules as the specification words them: length ≥ 8
(the code's length, i.e. UTF-8 bytes), at least one uppercase letter, one
lowercase letter, one digit and one punctuation/symbol character, and no
case-insensitive substring occurrence of any deny-list entry. -/
def SpecStrongPassword (cls : CharClassifiers) (password : String) : Prop :=
  8 ≤ password.utf8ByteSize ∧
  (∃ c ∈ password.data, cls.isUpper c) ∧
  (∃ c ∈ password.data, cls.isLower c) ∧
  (∃ c ∈ password.data, cls.isNumber c) ∧
  (∃ c ∈ password.data, cls.isPunct c ∨ cls.isSymbol c) ∧
  ∀ common ∈ commonPasswords, ¬ containsCI common password

/-- On the characters of `cs`, the five classifiers test pairwise-disjoint
character classes. This holds (for every character) of Go's
`unicode.IsUpper`/`IsLower`/`IsNumber`/`IsPunct`/`IsSymbol`, which test the
mutually exclusive Unicode general categories Lu, Ll, N, P and S. -/
def DisjointClassifiersOn (cls : CharClassifiers) (cs : List Char) : Prop :=
  ∀ c ∈ cs,
    (cls.isUpper c = true → cls.isLower c = false ∧ cls.isNumber c = false ∧
      cls.isPunct c = false ∧ cls.isSymbol c = false) ∧
    (cls.isLower c = true → cls.isNumber c = false ∧ cls.isPunct c = false ∧
      cls.isSymbol c = false) ∧
    (cls.isNumber c = true → cls.isPunct c = false ∧ cls.isSymbol c = false)

namespace AuthUseCase

/-- `AuthUseCase.Login` (auth_usecase.go:88-151). Explicit arguments model the
ambient effects: `now` for `time.Now()`, `randomBytes` for the entropy consumed
by `GenerateRefreshToken`, `tokenID`/`auditID` for the fresh `uuid.NewV7` ids,
and `updateFails` injects a failure of `userRepo.Update` (whose error the code
discards on the failed-password path and propagates on the success path).
Returns the caller-visible outcome together with the post-state. -/
def Login (cfg : AuthConfig) (st : Store) (now : Nat)
    (email password ipAddress userAgent : String)
    (randomBytes : List Nat) (tokenID auditID : Nat) (updateFails : Bool) :
    Except AuthErr LoginResponse × Store :=
  match st.findByEmail email with
  | none =>
      let lg := (newAuditLog auditID 0 .loginFailed ipAddress userAgent now).addMetadata
        "email" (.str email)
      (.error .InvalidCredentials, st.appendAudit lg)
  | some user =>
    if user.isAccountLocked now then
      let lg := newAuditLog auditID user.id .accountLocked ipAddress userAgent now
      (.error .AccountLocked, st.appendAudit lg)
    else if !user.verifyPassword password then
      let user := user.incrementFailedLoginAttempts cfg.maxLoginAttempts
        cfg.accountLockDuration now
      let st := if updateFails then st else st.updateUser user
      let lg := newAuditLog auditID user.id .loginFailed ipAddress userAgent now
      (.error .InvalidCredentials, st.appendAudit lg)
    else
      let user := (user.resetFailedLoginAttempts).updateLastLogin ipAddress now
      if updateFails then
        (.error .DatabaseOperation, st)
      else
        let st := st.updateUser user
        let accessToken := generateAccessToken user.id
        let (refreshPlain, refreshHash) := generateRefreshToken randomBytes
        let tok := newRefreshToken tokenID user.id refreshHash cfg.refreshTokenTTL now
        match st.createRefreshToken tok with
        | .error e => (.error e, st)
        | .ok st =>
          let st := st.appendAudit
            (newAuditLog auditID user.id .login ipAddress userAgent now)
          (.ok { accessToken := accessToken, refreshToken := refreshPlain,
                 tokenType := "Bearer", expiresIn := cfg.accessTokenTTL,
                 user := { id := user.id, email := user.email,
                           isVerified := user.isVerified,
                           createdAt := user.createdAt } }, st)

/-- `AuthUseCase.RefreshToken` (auth_usecase.go:152-196): look up the presented
plaintext by its hash, reject revoked/expired tokens, then rotate (revoke the
presented token before creating its replacement). -/
def RefreshToken (cfg : AuthConfig) (st : Store) (now : Nat)
    (refreshPlain : String) (randomBytes : List Nat) (tokenID auditID : Nat) :
    Except AuthErr RefreshTokenResponse × Store :=
  if refreshPlain == "" then
    (.error .MissingToken, st)
  else
    let refreshHash := hashToken refreshPlain
    match st.findByTokenHash refreshHash with
    | none => (.error .InvalidToken, st)
    | some token =>
      if !token.isValid now then
        (.error .TokenExpired, st)
      else
        let st := st.revokeByTokenHash refreshHash
        let newAccessToken := generateAccessToken token.userID
        let (newRefreshPlain, newRefreshHash) := generateRefreshToken randomBytes
        let newTok := newRefreshToken tokenID token.userID newRefreshHash
          cfg.refreshTokenTTL now
        match st.createRefreshToken newTok with
        | .error e => (.error e, st)
        | .ok st =>
          let st := st.appendAudit
            (newAuditLog auditID token.userID .tokenRefresh "" "" now)
          (.ok { accessToken := newAccessToken, refreshToken := newRefreshPlain,
                 tokenType := "Bearer", expiresIn := cfg.accessTokenTTL }, st)

/-- `AuthUseCase.LogoutAll` (auth_usecase.go:215-230). `userID` is the result of
the `uuid.Parse` gate (`none` = malformed identifier string). -/
def LogoutAll (st : Store) (userID : Option Nat) (ipAddress userAgent : String)
    (auditID now : Nat) : Except AuthErr Unit × Store :=
  match userID with
  | none => (.error .InvalidInput, st)
  | some uid =>
    let st := st.revokeAllByUserID uid
    let lg := (newAuditLog auditID uid .logout ipAddress userAgent now).addMetadata
      "all_sessions" (.bool true)
    (.ok (), st.appendAudit lg)

/-- `AuthUseCase.ChangePassword` (auth_usecase.go:252-285). `policy` is the
injected `PasswordService.ValidateStrength` capability. -/
def ChangePassword (st : Store) (userID : Option Nat)
    (oldPassword newPassword : String) (policy : String → Option AuthErr)
    (auditID now : Nat) : Except AuthErr Unit × Store :=
  match userID with
  | none => (.error .InvalidInput, st)
  | some uid =>
    match st.findByID uid with
    | none => (.error .UserNotFound, st)
    | some user =>
      if !user.verifyPassword oldPassword then
        (.error .InvalidPassword, st)
      else
        match policy newPassword with
        | some e => (.error e, st)
        | none =>
          let user := user.changePassword newPassword now
          let st := st.updateUser user
          let st := st.revokeAllByUserID uid
          let st := st.appendAudit
            (newAuditLog auditID user.id .passwordChange "" "" now)
          (.ok (), st)

end AuthUseCase

/-! Concrete data used to instantiate the theorems below: a configuration with
`maxAttempts = 5` and the user of the specification's example scenario
(`Register("a@x.com","Str0ng!Pass")`). -/

/-- Example configuration (5 attempts, 1800-second lock). -/
def exampleCfg : AuthConfig :=
  { accessTokenTTL := 900, refreshTokenTTL := 604800,
    maxLoginAttempts := 5, accountLockDuration := 1800 }

/-- The example user `a@x.com` with password `Str0ng!Pass`. -/
def exampleUser : UserE :=
  { id := 7, email := "a@x.com", passwordHash := bcryptHash "Str0ng!Pass",
    isVerified := false, isLocked := false, failedLoginAttempts := 0,
    lockedUntil := none, lastLoginAt := none, lastLoginIP := "",
    createdAt := 0, updatedAt := 0 }

/-- Store holding only the example user. -/
def exampleStore : Store :=
  { users := [exampleUser], refreshTokens := [], auditLogs := [] }

/-- The example user after four consecutive failed attempts. -/
def nearLockUser : UserE := { exampleUser with failedLoginAttempts := 4 }

/-- Store holding `nearLockUser`. -/
def nearLockStore : Store :=
  { users := [nearLockUser], refreshTokens := [], auditLogs := [] }

/-- The example user with a stale lock: still flagged locked with
`lockedUntil = 50` already elapsed, counter at the maximum. -/
def staleLockUser : UserE :=
  { exampleUser with
    isLocked := true,
    lockedUntil := some 50,
    failedLoginAttempts := 5 }

/-- Store holding `staleLockUser`. -/
def staleLockStore : Store :=
  { users := [staleLockUser], refreshTokens := [], auditLogs := [] }

/-- A live refresh token owned by user 7, stored under the hash of the
plaintext `tok`. -/
def demoToken : RefreshTokenE :=
  { id := 1, userID := 7, tokenHash := hashToken "tok", expiresAt := 100000,
    isRevoked := false, createdAt := 0, updatedAt := 0 }

/-- Store holding only `demoToken`. -/
def demoTokenStore : Store :=
  { users := [], refreshTokens := [demoToken], auditLogs := [] }

/-- Store holding the example user together with their live refresh token. -/
def sessionStore : Store :=
  { users := [exampleUser], refreshTokens := [demoToken], auditLogs := [] }

/-- ASCII instantiation of the rune classifiers (the ASCII fragment of Go's
`unicode` classification), used to evaluate the password policy on concrete
inputs. -/
def asciiDemoClassifiers : CharClassifiers :=
  { isUpper := fun c => 'A' ≤ c && c ≤ 'Z',
    isLower := fun c => 'a' ≤ c && c ≤ 'z',
    isNumber := fun c => '0' ≤ c && c ≤ '9',
    isPunct := fun c => c == '!' || c == '.' || c == ',' || c == '-' || c == '_',
    isSymbol := fun c => c == '$' || c == '+' || c == '<' || c == '=' || c == '>' }

/-- One wrong-password login attempt of the example scenario at time `now`. -/
def wrongLoginStep (st : Store) (now : Nat) :
    Except AuthErr LoginResponse × Store :=
  AuthUseCase.Login exampleCfg st now "a@x.com" "wrong" "ip" "ua" [] 0 0 false

/-- Store after `n` consecutive wrong-password logins of the example scenario
(the `k`-th attempt happens at time `k`). -/
def wrongLoginChain : Nat → Store
  | 0 => exampleStore
  | n + 1 => (wrongLoginStep (wrongLoginChain n) (n + 1)).2

/-- Caller-visible outcome of the 5th consecutive wrong-password login. -/
def fifthLoginOutcome : Except AuthErr LoginResponse :=
  (wrongLoginStep (wrongLoginChain 4) 5).1

/-! List-level helper lemmas about `find?` over the row maps the repositories
perform. -/

theorem find?_map_pres {α : Type} (g : α → α) (p : α → Bool)
    (hp : ∀ x, p (g x) = p x) (l : List α) :
    (l.map g).find? p = (l.find? p).map g := by
  rw [List.find?_map]
  have : (p ∘ g) = p := funext hp
  rw [this]

theorem find?_map_update {α : Type} (p : α → Bool) (g : α → α) (l : List α)
    (u : α) (hfind : l.find? p = some u)
    (hg : ∀ x, g x = x ∨ g x = g u)
    (hpu : p (g u) = true) :
    (l.map g).find? p = some (g u) := by
  induction l with
  | nil => simp at hfind
  | cons x xs ih =>
    by_cases hpx : p x = true
    · rw [List.find?_cons_of_pos _ hpx] at hfind
      obtain rfl : x = u := by injection hfind
      simp [List.find?_cons_of_pos _ hpu]
    · rw [List.find?_cons_of_neg _ hpx] at hfind
      rcases hg x with hx | hx
      · simp only [List.map_cons]
        rw [List.find?_cons_of_neg]
        · exact ih hfind
        · rw [hx]; exact hpx
      · simp only [List.map_cons, hx]
        exact List.find?_cons_of_pos _ hpu

theorem find?_append_some {α : Type} (p : α → Bool) (l1 l2 : List α) (a : α)
    (h : l1.find? p = some a) : (l1 ++ l2).find? p = some a := by
  rw [List.find?_append, h]
  rfl

theorem find?_append_of_none {α : Type} (p : α → Bool) (l1 l2 : List α)
    (h : l1.find? p = none) : (l1 ++ l2).find? p = l2.find? p := by
  rw [List.find?_append, h]
  rfl

/-! Facts about the lockout helpers of `entity.User` and store lookups. -/

theorem increment_locks (u : UserE) (maxA dur now : Nat)
    (h : maxA ≤ u.failedLoginAttempts + 1) :
    (u.incrementFailedLoginAttempts maxA dur now).isLocked = true ∧
    (u.incrementFailedLoginAttempts maxA dur now).lockedUntil
        = some (now + dur) ∧
    (u.incrementFailedLoginAttempts maxA dur now).id = u.id ∧
    (u.incrementFailedLoginAttempts maxA dur now).email = u.email ∧
    (u.incrementFailedLoginAttempts maxA dur now).failedLoginAttempts
        = u.failedLoginAttempts + 1 := by
  simp [UserE.incrementFailedLoginAttempts, h]

theorem isAccountLocked_of_until (u : UserE) (T now : Nat)
    (hl : u.isLocked = true) (hu : u.lockedUntil = some T) (hle : now ≤ T) :
    u.isAccountLocked now = true := by
  simp [UserE.isAccountLocked, hl, hu, Nat.not_lt.mpr hle]

theorem isAccountLocked_false_of_elapsed (u : UserE) (T now : Nat)
    (hu : u.lockedUntil = some T) (hT : T < now) :
    u.isAccountLocked now = false := by
  simp [UserE.isAccountLocked, hu, hT]

theorem findByEmail_updateUser (st : Store) (email : String) (u u' : UserE)
    (hfind : st.findByEmail email = some u)
    (hid : u'.id = u.id) (hemail : u'.email = u.email) :
    (st.updateUser u').findByEmail email = some u' := by
  simp only [Store.findByEmail, Store.updateUser] at hfind ⊢
  have hgu : (fun x => if x.id == u'.id then u' else x) u = u' := by
    simp [hid]
  have := find?_map_update (p := fun x => x.email == email)
    (g := fun x => if x.id == u'.id then u' else x) st.users u hfind
    (by
      intro x
      by_cases hx : x.id == u'.id
      · right
        have hxid : x.id = u.id := by simpa [hid] using hx
        simp [hx, hid, hxid]
      · left; simp [hx])
    (by
      rw [hgu]
      have := List.find?_some hfind
      simpa [hemail] using this)
  rw [this, hgu]

theorem findByEmail_appendAudit (st : Store) (lg : AuditLogE) (email : String) :
    (st.appendAudit lg).findByEmail email = st.findByEmail email := rfl

theorem isValid_not_revoked (rt : RefreshTokenE) (now : Nat)
    (h : rt.isValid now = true) : rt.isRevoked = false := by
  by_cases hr : rt.isRevoked = true
  · simp [RefreshTokenE.isValid, hr] at h
  · simpa using hr

theorem isValid_of_revoked (rt : RefreshTokenE) (now : Nat)
    (h : rt.isRevoked = true) : rt.isValid now = false := by
  simp [RefreshTokenE.isValid, h]

/-! Branch characterizations of `AuthUseCase.Login` and inversion principles
for the successful paths of the orchestrator operations. -/

theorem Login_unknown_email (cfg : AuthConfig) (st : Store) (now : Nat)
    (email pw ip ua : String) (rb : List Nat) (tid aid : Nat) (uf : Bool)
    (h : st.findByEmail email = none) :
    AuthUseCase.Login cfg st now email pw ip ua rb tid aid uf =
      (.error .InvalidCredentials,
       st.appendAudit
         ((newAuditLog aid 0 .loginFailed ip ua now).addMetadata "email"
           (.str email))) := by
  simp [AuthUseCase.Login, h]

theorem Login_locked (cfg : AuthConfig) (st : Store) (now : Nat)
    (email pw ip ua : String) (rb : List Nat) (tid aid : Nat) (uf : Bool)
    (u : UserE) (hfind : st.findByEmail email = some u)
    (hlocked : u.isAccountLocked now = true) :
    AuthUseCase.Login cfg st now email pw ip ua rb tid aid uf =
      (.error .AccountLocked,
       st.appendAudit (newAuditLog aid u.id .accountLocked ip ua now)) := by
  simp [AuthUseCase.Login, hfind, hlocked]

theorem Login_wrong_password (cfg : AuthConfig) (st : Store) (now : Nat)
    (email pw ip ua : String) (rb : List Nat) (tid aid : Nat) (uf : Bool)
    (u : UserE) (hfind : st.findByEmail email = some u)
    (hnl : u.isAccountLocked now = false)
    (hwrong : u.verifyPassword pw = false) :
    AuthUseCase.Login cfg st now email pw ip ua rb tid aid uf =
      (.error .InvalidCredentials,
       (if uf then st
        else st.updateUser
          (u.incrementFailedLoginAttempts cfg.maxLoginAttempts
            cfg.accountLockDuration now)).appendAudit
         (newAuditLog aid
           (u.incrementFailedLoginAttempts cfg.maxLoginAttempts
             cfg.accountLockDuration now).id .loginFailed ip ua now)) := by
  simp [AuthUseCase.Login, hfind, hnl, hwrong]

theorem RefreshToken_ok_inv
    (cfg : AuthConfig) (st : Store) (now : Nat) (plain : String)
    (rb : List Nat) (tid aid : Nat) (res : RefreshTokenResponse) (st' : Store)
    (h : AuthUseCase.RefreshToken cfg st now plain rb tid aid
          = (Except.ok res, st')) :
    (plain == "") = false ∧
    ∃ tok, st.findByTokenHash (hashToken plain) = some tok ∧
      tok.isValid now = true ∧
      st'.refreshTokens =
        (st.revokeByTokenHash (hashToken plain)).refreshTokens ++
          [newRefreshToken tid tok.userID (generateRefreshToken rb).2
            cfg.refreshTokenTTL now] := by
  rw [AuthUseCase.RefreshToken] at h
  split at h
  · simp at h
  · rename_i hne
    split at h
    rename_i pr refreshPlain refreshHash heq
    dsimp only at h
    split at h
    · simp at h
    · rename_i tok hfind
      split at h
      · simp at h
      · rename_i hvalid
        split at h
        · simp at h
        · rename_i st2 hcreate
          refine ⟨by simpa using hne, tok, hfind, by simpa using hvalid, ?_⟩
          rw [heq]
          have hst2 : st2.refreshTokens =
              (st.revokeByTokenHash (hashToken plain)).refreshTokens ++
                [newRefreshToken tid tok.userID refreshHash
                  cfg.refreshTokenTTL now] := by
            rw [Store.createRefreshToken] at hcreate
            split at hcreate
            · simp at hcreate
            · injection hcreate with hc
              rw [← hc]
          have : st' = st2.appendAudit
              (newAuditLog aid tok.userID AuditAction.tokenRefresh "" "" now) := by
            have := congrArg Prod.snd h
            simpa using this.symm
          rw [this]
          simpa [Store.appendAudit] using hst2

theorem ChangePassword_ok_inv
    (st : Store) (uid : Nat) (oldPw newPw : String)
    (policy : String → Option AuthErr) (aid now : Nat) (st' : Store)
    (h : AuthUseCase.ChangePassword st (some uid) oldPw newPw policy aid now
          = (Except.ok (), st')) :
    st'.refreshTokens = st.refreshTokens.map (fun t =>
      if t.userID == uid && !t.isRevoked then { t with isRevoked := true }
      else t) := by
  rw [AuthUseCase.ChangePassword] at h
  dsimp only at h
  split at h
  · simp at h
  · rename_i user hfindid
    split at h
    · simp at h
    · rename_i hver
      split at h
      · simp at h
      · rename_i hpolicy
        have hsnd := congrArg Prod.snd h
        dsimp only at hsnd
        rw [← hsnd]
        rfl

theorem revoked_of_mem_revokeAll (l : List RefreshTokenE) (uid : Nat)
    (t : RefreshTokenE)
    (ht : t ∈ l.map (fun t =>
      if t.userID == uid && !t.isRevoked then { t with isRevoked := true }
      else t))
    (huid : t.userID = uid) : t.isRevoked = true := by
  obtain ⟨x, hx, hfx⟩ := List.mem_map.1 ht
  by_cases hc : (x.userID == uid && !x.isRevoked) = true
  · rw [if_pos hc] at hfx
    rw [← hfx]
  · rw [if_neg hc] at hfx
    subst hfx
    have hc' : ¬(x.userID = uid ∧ x.isRevoked = false) := by
      simpa [Bool.and_eq_true] using hc
    by_cases hr : x.isRevoked = true
    · exact hr
    · exact absurd ⟨huid, by simpa using hr⟩ hc'

theorem Login_ok_inv
    (cfg : AuthConfig) (st : Store) (now : Nat)
    (email pw ip ua : String) (rb : List Nat) (tid aid : Nat)
    (res : LoginResponse) (st' : Store)
    (h : AuthUseCase.Login cfg st now email pw ip ua rb tid aid false
          = (Except.ok res, st')) :
    res.refreshToken = (generateRefreshToken rb).1 ∧
    ∃ u, st.findByEmail email = some u ∧
      st'.refreshTokens = st.refreshTokens ++
        [newRefreshToken tid u.id (generateRefreshToken rb).2
          cfg.refreshTokenTTL now] ∧
      (st.refreshTokens.any (fun t =>
        t.tokenHash == (generateRefreshToken rb).2)) = false := by
  rw [AuthUseCase.Login] at h
  split at h
  · simp at h
  · rename_i u hfind
    dsimp only at h
    split at h
    · simp at h
    · rename_i hnl
      split at h
      · simp at h
      · rename_i hver
        split at h
        · simp at h
        · split at h
          · simp at h
          · rename_i st2 hcreate
            rw [Store.createRefreshToken] at hcreate
            split at hcreate
            · simp at hcreate
            · rename_i hany
              injection hcreate with hc
              have hfst := congrArg Prod.fst h
              have hsnd := congrArg Prod.snd h
              dsimp only at hfst hsnd
              injection hfst with hres
              refine ⟨?_, u, hfind, ?_, ?_⟩
              · rw [← hres]
              · rw [← hsnd, ← hc]
                rfl
              · simpa [Store.updateUser] using hany

/-! Characterization of the `ValidateStrength` scan loop. -/

theorem scanFlags_spec (cls : CharClassifiers) (cs : List Char)
    (hd : DisjointClassifiersOn cls cs) :
    (scanFlags cls cs).hasUpper = cs.any cls.isUpper ∧
    (scanFlags cls cs).hasLower = cs.any cls.isLower ∧
    (scanFlags cls cs).hasNumber = cs.any cls.isNumber ∧
    (scanFlags cls cs).hasSpecial
      = cs.any (fun c => cls.isPunct c || cls.isSymbol c) := by
  induction cs with
  | nil => exact ⟨rfl, rfl, rfl, rfl⟩
  | cons c rest ih =>
    have hdc := hd c (List.mem_cons_self c rest)
    have hdr : DisjointClassifiersOn cls rest := fun x hx =>
      hd x (List.mem_cons_of_mem c hx)
    obtain ⟨ihU, ihL, ihN, ihS⟩ := ih hdr
    rw [scanFlags]
    cases h1 : cls.isUpper c with
    | true =>
      obtain ⟨hL, hN, hP, hS⟩ := hdc.1 h1
      simp [h1, hL, hN, hP, hS, ihU, ihL, ihN, ihS]
    | false =>
      cases h2 : cls.isLower c with
      | true =>
        obtain ⟨hN, hP, hS⟩ := hdc.2.1 h2
        simp [h1, h2, hN, hP, hS, ihU, ihL, ihN, ihS]
      | false =>
        cases h3 : cls.isNumber c with
        | true =>
          obtain ⟨hP, hS⟩ := hdc.2.2 h3
          simp [h1, h2, h3, hP, hS, ihU, ihL, ihN, ihS]
        | false =>
          cases h4 : (cls.isPunct c || cls.isSymbol c) with
          | true => simp [h1, h2, h3, h4, ihU, ihL, ihN, ihS]
          | false => simp [h1, h2, h3, h4, ihU, ihL, ihN, ihS]

theorem validateStrength_none_iff (cls : CharClassifiers) (password : String) :
    validateStrength cls password = none ↔
      ¬ password.utf8ByteSize < 8 ∧
      (scanFlags cls password.data).hasUpper = true ∧
      (scanFlags cls password.data).hasLower = true ∧
      (scanFlags cls password.data).hasNumber = true ∧
      (scanFlags cls password.data).hasSpecial = true ∧
      (commonPasswords.any (fun c => containsCI c password)) = false := by
  rw [validateStrength]
  by_cases h0 : password.utf8ByteSize < 8 <;>
    by_cases h1 : (scanFlags cls password.data).hasUpper = true <;>
      by_cases h2 : (scanFlags cls password.data).hasLower = true <;>
        by_cases h3 : (scanFlags cls password.data).hasNumber = true <;>
          by_cases h4 : (scanFlags cls password.data).hasSpecial = true <;>
            by_cases h5 : (commonPasswords.any
              (fun c => containsCI c password)) = true <;>
              simp [h0, h1, h2, h3, h4, h5]

theorem validateStrength_cases (cls : CharClassifiers) (password : String) :
    validateStrength cls password = none ∨
      validateStrength cls password = some AuthErr.WeakPassword := by
  rw [validateStrength]
  by_cases h0 : password.utf8ByteSize < 8 <;>
    by_cases h1 : (scanFlags cls password.data).hasUpper = true <;>
      by_cases h2 : (scanFlags cls password.data).hasLower = true <;>
        by_cases h3 : (scanFlags cls password.data).hasNumber = true <;>
          by_cases h4 : (scanFlags cls password.data).hasSpecial = true <;>
            by_cases h5 : (commonPasswords.any
              (fun c => containsCI c password)) = true <;>
              simp [h0, h1, h2, h3, h4, h5]

/-- C1: Refresh-token rotation is single-use. If presenting a plaintext to
`RefreshToken` succeeds, presenting the same plaintext again (with no
intervening operations) fails with `TokenExpired` (one of the two error kinds
`InvalidToken`/`TokenExpired` the claim allows), at any later time — in
particular even if the token's original `expiresAt` has not elapsed — so reuse
never re-authorizes. -/
theorem refresh_token_rotation_single_use
    (cfg : AuthConfig) (st : Store) (now : Nat) (plain : String)
    (rb : List Nat) (tid aid : Nat) (res : RefreshTokenResponse) (st' : Store)
    (h : AuthUseCase.RefreshToken cfg st now plain rb tid aid
          = (Except.ok res, st'))
    (now2 : Nat) (rb2 : List Nat) (tid2 aid2 : Nat) :
    (AuthUseCase.RefreshToken cfg st' now2 plain rb2 tid2 aid2).1
      = Except.error AuthErr.TokenExpired := by
  obtain ⟨hne, tok, hfind, hvalid, hlist⟩ :=
    RefreshToken_ok_inv cfg st now plain rb tid aid res st' h
  rw [Store.findByTokenHash] at hfind
  have hhash : (tok.tokenHash == hashToken plain) = true := by
    have := List.find?_some hfind
    simpa using this
  have hrev : tok.isRevoked = false := isValid_not_revoked tok now hvalid
  set g := fun t : RefreshTokenE =>
    if t.tokenHash == hashToken plain && !t.isRevoked then
      { t with isRevoked := true }
    else t with hg
  have hpres : ∀ x, ((g x).tokenHash == hashToken plain)
      = (x.tokenHash == hashToken plain) := by
    intro x
    rw [hg]
    dsimp only
    by_cases hc : (x.tokenHash == hashToken plain && !x.isRevoked) = true
    · rw [if_pos hc]
    · rw [if_neg hc]
  have hcond : (tok.tokenHash == hashToken plain && !tok.isRevoked) = true := by
    rw [hhash, hrev]
    rfl
  have hgtok : g tok = { tok with isRevoked := true } := by
    rw [hg]
    dsimp only
    rw [if_pos hcond]
  have hfind' : st'.findByTokenHash (hashToken plain) = some (g tok) := by
    rw [Store.findByTokenHash, hlist]
    refine find?_append_some _ _ _ _ ?_
    show ((st.refreshTokens.map g).find?
      (fun t => t.tokenHash == hashToken plain)) = some (g tok)
    rw [find?_map_pres g _ hpres st.refreshTokens, hfind]
    rfl
  have hinvalid : (g tok).isValid now2 = false :=
    isValid_of_revoked _ _ (by rw [hgtok])
  simp [AuthUseCase.RefreshToken, hne, hfind', hinvalid]

/-- Witness for C1: in the concrete one-token store, redeeming `tok` succeeds
once and the immediate second redemption fails with `TokenExpired`. -/
theorem refresh_token_rotation_single_use_witness :
    (AuthUseCase.RefreshToken exampleCfg
        (AuthUseCase.RefreshToken exampleCfg demoTokenStore 10 "tok"
          [1, 2, 3] 2 3).2
        20 "tok" [4, 5, 6] 4 5).1
      = Except.error AuthErr.TokenExpired := by
  obtain ⟨res, st', h⟩ : ∃ res st',
      AuthUseCase.RefreshToken exampleCfg demoTokenStore 10 "tok" [1, 2, 3] 2 3
        = (Except.ok res, st') := ⟨_, _, rfl⟩
  have h2 : (AuthUseCase.RefreshToken exampleCfg demoTokenStore 10 "tok"
      [1, 2, 3] 2 3).2 = st' := by rw [h]
  rw [h2]
  exact refresh_token_rotation_single_use exampleCfg demoTokenStore 10 "tok"
    [1, 2, 3] 2 3 res st' h 20 [4, 5, 6] 4 5

/-- C2: Lockout state machine. For a user found by email, not currently
locked, whose next consecutive wrong-password login is the `N`-th failure
(`failedLoginAttempts + 1 = maxLoginAttempts`): that login returns
`InvalidCredentials` and persists the user with `isLocked = true` and
`lockedUntil = now + accountLockDuration`; every subsequent login — with any
password, in particular the correct one — fails with `AccountLocked` for as
long as `lockedUntil` has not elapsed. -/
theorem login_lockout_state_machine
    (cfg : AuthConfig) (st : Store) (now : Nat)
    (email wrongPw ip ua : String) (rb : List Nat) (tid aid : Nat)
    (u : UserE)
    (hfind : st.findByEmail email = some u)
    (hnl : u.isAccountLocked now = false)
    (hwrong : u.verifyPassword wrongPw = false)
    (hN : u.failedLoginAttempts + 1 = cfg.maxLoginAttempts) :
    (AuthUseCase.Login cfg st now email wrongPw ip ua rb tid aid false).1
        = Except.error AuthErr.InvalidCredentials ∧
    ∃ u', (AuthUseCase.Login cfg st now email wrongPw ip ua rb tid aid
              false).2.findByEmail email = some u' ∧
      u'.isLocked = true ∧
      u'.lockedUntil = some (now + cfg.accountLockDuration) ∧
      ∀ (now2 : Nat) (pw2 ip2 ua2 : String) (rb2 : List Nat)
        (tid2 aid2 : Nat) (uf2 : Bool),
        now2 ≤ now + cfg.accountLockDuration →
        (AuthUseCase.Login cfg
            (AuthUseCase.Login cfg st now email wrongPw ip ua rb tid aid
              false).2 now2 email pw2 ip2 ua2 rb2 tid2 aid2 uf2).1
          = Except.error AuthErr.AccountLocked := by
  have hlogin := Login_wrong_password cfg st now email wrongPw ip ua
    rb tid aid false u hfind hnl hwrong
  have hinc := increment_locks u cfg.maxLoginAttempts cfg.accountLockDuration
    now (Nat.le_of_eq hN.symm)
  obtain ⟨hl', hu', hid', hemail', hcnt'⟩ := hinc
  set u' := u.incrementFailedLoginAttempts cfg.maxLoginAttempts
    cfg.accountLockDuration now with hu'def
  have hfind' : (AuthUseCase.Login cfg st now email wrongPw ip ua rb tid aid
      false).2.findByEmail email = some u' := by
    rw [hlogin]
    simp only [if_neg (Bool.false_ne_true)]
    rw [findByEmail_appendAudit]
    exact findByEmail_updateUser st email u u' hfind hid' hemail'
  refine ⟨by rw [hlogin], u', hfind', hl', hu', ?_⟩
  intro now2 pw2 ip2 ua2 rb2 tid2 aid2 uf2 hle
  have hlocked2 : u'.isAccountLocked now2 = true :=
    isAccountLocked_of_until u' (now + cfg.accountLockDuration) now2 hl' hu' hle
  rw [Login_locked cfg _ now2 email pw2 ip2 ua2 rb2 tid2 aid2 uf2
    u' hfind' hlocked2]

/-- Witness for C2: after the 5th wrong-password login against the concrete
near-lock store (counter at 4, `maxAttempts = 5`), a login with the correct
password before `lockedUntil` fails with `AccountLocked`. -/
theorem login_lockout_state_machine_witness :
    (AuthUseCase.Login exampleCfg nearLockStore 100 "a@x.com" "wrong" "ip" "ua"
        [] 0 0 false).1 = Except.error AuthErr.InvalidCredentials ∧
    (AuthUseCase.Login exampleCfg
        (AuthUseCase.Login exampleCfg nearLockStore 100 "a@x.com" "wrong" "ip"
          "ua" [] 0 0 false).2
        101 "a@x.com" "Str0ng!Pass" "ip" "ua" [] 0 0 false).1
      = Except.error AuthErr.AccountLocked := by
  obtain ⟨h1, u', hfind', hl', hu', hall⟩ :=
    login_lockout_state_machine exampleCfg nearLockStore 100 "a@x.com" "wrong"
      "ip" "ua" [] 0 0 nearLockUser (by decide) (by decide) (by decide)
      (by decide)
  exact ⟨h1, hall 101 "Str0ng!Pass" "ip" "ua" [] 0 0 false (by decide)⟩

/-- C3 counterexample: in the spec's example scenario (`maxAttempts = 5`, 5
consecutive wrong-password logins), the 5th attempt does NOT return
`AccountLocked`: it returns `InvalidCredentials`, although it does leave the
stored user locked. The lock check runs before password verification, so
`AccountLocked` is first returned on the following attempt. -/
theorem fifth_wrong_login_not_account_locked :
    fifthLoginOutcome ≠ Except.error AuthErr.AccountLocked ∧
    fifthLoginOutcome = Except.error AuthErr.InvalidCredentials ∧
    (wrongLoginChain 5).findByEmail "a@x.com" =
      some { exampleUser with
             failedLoginAttempts := 5, isLocked := true,
             lockedUntil := some 1805 } := by
  refine ⟨?_, rfl, rfl⟩
  rw [show fifthLoginOutcome = Except.error AuthErr.InvalidCredentials from rfl]
  simp

/-- C3 amended: the 5th consecutive wrong-password login returns
`InvalidCredentials` while setting `isLocked = true` (with
`lockedUntil = 5 + 1800`); `AccountLocked` is returned from the 6th attempt on
(even with the correct password) while the lock lasts. -/
theorem fifth_wrong_login_locks_sixth_account_locked :
    fifthLoginOutcome = Except.error AuthErr.InvalidCredentials ∧
    (wrongLoginChain 5).findByEmail "a@x.com" =
      some { exampleUser with
             failedLoginAttempts := 5, isLocked := true,
             lockedUntil := some 1805 } ∧
    (AuthUseCase.Login exampleCfg (wrongLoginChain 5) 6 "a@x.com"
        "Str0ng!Pass" "ip" "ua" [] 0 0 false).1
      = Except.error AuthErr.AccountLocked :=
  ⟨rfl, rfl, rfl⟩

/-- C4: `LogoutAll` succeeds for every well-formed user id, revokes every
refresh token owned by that user (in particular every non-revoked one), records
a `logout` audit entry with metadata `all_sessions = true`, and returns
`InvalidInput` exactly when the user id is malformed (the `uuid.Parse` gate
fails), leaving the store untouched in that case. -/
theorem logoutAll_revokes_all_and_fails_only_on_malformed_id
    (st : Store) (uid : Nat) (ip ua : String) (aid now : Nat) :
    ((AuthUseCase.LogoutAll st (some uid) ip ua aid now).1 = Except.ok ()) ∧
    (∀ t ∈ (AuthUseCase.LogoutAll st (some uid) ip ua aid now).2.refreshTokens,
      t.userID = uid → t.isRevoked = true) ∧
    ((AuthUseCase.LogoutAll st (some uid) ip ua aid now).2.auditLogs
      = st.auditLogs ++
        [(newAuditLog aid uid AuditAction.logout ip ua now).addMetadata
          "all_sessions" (MetaValue.bool true)]) ∧
    (AuthUseCase.LogoutAll st none ip ua aid now
      = (Except.error AuthErr.InvalidInput, st)) := by
  refine ⟨rfl, ?_, rfl, rfl⟩
  intro t ht huid
  exact revoked_of_mem_revokeAll st.refreshTokens uid t ht huid

/-- Witness for C4: on the concrete one-token store, `LogoutAll` for user 7
succeeds and leaves the token revoked, and a malformed id yields
`InvalidInput`. -/
theorem logoutAll_revokes_all_and_fails_only_on_malformed_id_witness :
    (AuthUseCase.LogoutAll demoTokenStore (some 7) "ip" "ua" 9 50).1
      = Except.ok () ∧
    ({ demoToken with isRevoked := true } : RefreshTokenE).isRevoked = true ∧
    AuthUseCase.LogoutAll demoTokenStore none "ip" "ua" 9 50
      = (Except.error AuthErr.InvalidInput, demoTokenStore) := by
  have h := logoutAll_revokes_all_and_fails_only_on_malformed_id demoTokenStore
    7 "ip" "ua" 9 50
  exact ⟨h.1, h.2.1 { demoToken with isRevoked := true } (by decide) rfl,
    h.2.2.2⟩

/-- C5: a successful `ChangePassword` revokes every refresh token owned by the
user, and no refresh token of that user stored before the change can be
redeemed afterwards: `RefreshToken` never succeeds on it, at any later time. -/
theorem changePassword_invalidates_all_sessions
    (st : Store) (uid : Nat) (oldPw newPw : String)
    (policy : String → Option AuthErr) (aid now : Nat) (st' : Store)
    (h : AuthUseCase.ChangePassword st (some uid) oldPw newPw policy aid now
          = (Except.ok (), st')) :
    (∀ t ∈ st'.refreshTokens, t.userID = uid → t.isRevoked = true) ∧
    ∀ (cfg : AuthConfig) (now2 : Nat) (plain : String) (rb2 : List Nat)
      (tid2 aid2 : Nat) (tok : RefreshTokenE),
      st.findByTokenHash (hashToken plain) = some tok → tok.userID = uid →
      ∀ r, (AuthUseCase.RefreshToken cfg st' now2 plain rb2 tid2 aid2).1
        ≠ Except.ok r := by
  have hlist := ChangePassword_ok_inv st uid oldPw newPw policy aid now st' h
  constructor
  · intro t ht huid
    rw [hlist] at ht
    exact revoked_of_mem_revokeAll st.refreshTokens uid t ht huid
  · intro cfg now2 plain rb2 tid2 aid2 tok hfind huid r
    by_cases hempty : (plain == "") = true
    · simp [AuthUseCase.RefreshToken, hempty]
    · rw [Store.findByTokenHash] at hfind
      set g := fun t : RefreshTokenE =>
        if t.userID == uid && !t.isRevoked then { t with isRevoked := true }
        else t with hg
      have hpres : ∀ x, ((g x).tokenHash == hashToken plain)
          = (x.tokenHash == hashToken plain) := by
        intro x
        rw [hg]
        dsimp only
        by_cases hc : (x.userID == uid && !x.isRevoked) = true
        · rw [if_pos hc]
        · rw [if_neg hc]
      have hfind' : st'.findByTokenHash (hashToken plain) = some (g tok) := by
        rw [Store.findByTokenHash, hlist,
          find?_map_pres g _ hpres st.refreshTokens, hfind]
        rfl
      have hrevoked : (g tok).isRevoked = true := by
        rw [hg]
        dsimp only
        by_cases hc : (tok.userID == uid && !tok.isRevoked) = true
        · rw [if_pos hc]
        · rw [if_neg hc]
          have hc' : ¬(tok.userID = uid ∧ tok.isRevoked = false) := by
            simpa [Bool.and_eq_true] using hc
          by_cases hr : tok.isRevoked = true
          · exact hr
          · exact absurd ⟨huid, by simpa using hr⟩ hc'
      have hinvalid : (g tok).isValid now2 = false :=
        isValid_of_revoked _ _ hrevoked
      simp [AuthUseCase.RefreshToken, hempty, hfind', hinvalid]

/-- Witness for C5: after the example user successfully changes their password,
their previously live refresh token `tok` can no longer be redeemed. -/
theorem changePassword_invalidates_all_sessions_witness :
    (AuthUseCase.RefreshToken exampleCfg
        (AuthUseCase.ChangePassword sessionStore (some 7) "Str0ng!Pass"
          "NewP4ss!word" (validateStrength asciiDemoClassifiers) 1 50).2
        60 "tok" [1, 2, 3] 2 3).1
      ≠ Except.ok { accessToken := "jwt$7", refreshToken := "AQID",
                    tokenType := "Bearer", expiresIn := 900 } := by
  obtain ⟨st', h⟩ : ∃ st',
      AuthUseCase.ChangePassword sessionStore (some 7) "Str0ng!Pass"
        "NewP4ss!word" (validateStrength asciiDemoClassifiers) 1 50
        = (Except.ok (), st') := ⟨_, rfl⟩
  have h2 : (AuthUseCase.ChangePassword sessionStore (some 7) "Str0ng!Pass"
      "NewP4ss!word" (validateStrength asciiDemoClassifiers) 1 50).2 = st' := by
    rw [h]
  rw [h2]
  exact (changePassword_invalidates_all_sessions sessionStore 7 "Str0ng!Pass"
    "NewP4ss!word" (validateStrength asciiDemoClassifiers) 1 50 st' h).2
    exampleCfg 60 "tok" [1, 2, 3] 2 3 demoToken (by decide) rfl
    { accessToken := "jwt$7", refreshToken := "AQID",
      tokenType := "Bearer", expiresIn := 900 }

/-- C6: `ValidateStrength` returns ok exactly when the password satisfies the
spec's rules — length ≥ 8 (Go's `len`, i.e. UTF-8 bytes), at least one
uppercase letter, one lowercase letter, one digit and one punctuation/symbol
character, and no case-insensitive substring occurrence of a deny-list entry —
and every rejection is `WeakPassword`. The classifier-disjointness hypothesis
(restricted to the password's characters) holds of Go's `unicode` classifiers,
which test mutually exclusive Unicode general categories; it is needed because
the scan loop's `switch` marks each character with its first matching class
only. The function is pure, so it has no side effects by construction. -/
theorem validateStrength_iff_spec_rules
    (cls : CharClassifiers) (password : String)
    (hd : DisjointClassifiersOn cls password.data) :
    (validateStrength cls password = none ↔ SpecStrongPassword cls password) ∧
    (validateStrength cls password = none ∨
      validateStrength cls password = some AuthErr.WeakPassword) := by
  obtain ⟨hU, hL, hN, hS⟩ := scanFlags_spec cls password.data hd
  refine ⟨?_, validateStrength_cases cls password⟩
  rw [validateStrength_none_iff, SpecStrongPassword, hU, hL, hN, hS]
  simp [List.any_eq_true, List.any_eq_false, Nat.not_lt]

/-- Witness for C6: with the ASCII classifiers, `Str0ng!Pass` is accepted and
satisfies the spec predicate, while `weakpass` is rejected with
`WeakPassword`. -/
theorem validateStrength_iff_spec_rules_witness :
    SpecStrongPassword asciiDemoClassifiers "Str0ng!Pass" ∧
    validateStrength asciiDemoClassifiers "weakpass"
      = some AuthErr.WeakPassword := by
  have h := validateStrength_iff_spec_rules asciiDemoClassifiers "Str0ng!Pass"
    (by unfold DisjointClassifiersOn; decide)
  have h2 := validateStrength_iff_spec_rules asciiDemoClassifiers "weakpass"
    (by unfold DisjointClassifiersOn; decide)
  refine ⟨h.1.mp (by decide), ?_⟩
  rcases h2.2 with hnone | hweak
  · exact absurd hnone (by decide)
  · exact hweak

/-- C7: Login does not reveal account existence. When the email is unknown,
Login records a `login_failed` audit entry carrying the sentinel user id 0
(`uuid.Nil`, the zero value of `entity.User{}.ID`) and the attempted email as
metadata, and returns `InvalidCredentials` — the same error kind returned when
the email exists but the password is wrong — so the caller-visible result
never distinguishes the two cases. -/
theorem login_conflates_unknown_email_and_wrong_password
    (cfg : AuthConfig) (st : Store) (now : Nat)
    (email pw ip ua : String) (rb : List Nat) (tid aid : Nat) (uf : Bool) :
    (st.findByEmail email = none →
      AuthUseCase.Login cfg st now email pw ip ua rb tid aid uf =
        (Except.error AuthErr.InvalidCredentials,
         st.appendAudit
           ((newAuditLog aid 0 AuditAction.loginFailed ip ua now).addMetadata
             "email" (MetaValue.str email)))) ∧
    (∀ u, st.findByEmail email = some u → u.isAccountLocked now = false →
      u.verifyPassword pw = false →
      (AuthUseCase.Login cfg st now email pw ip ua rb tid aid uf).1
        = Except.error AuthErr.InvalidCredentials) := by
  constructor
  · intro h
    exact Login_unknown_email cfg st now email pw ip ua rb tid aid uf h
  · intro u hfind hnl hwrong
    rw [Login_wrong_password cfg st now email pw ip ua rb tid aid uf u hfind
      hnl hwrong]

/-- Witness for C7: a login with an unknown email against the concrete store
returns `InvalidCredentials` and appends the sentinel audit entry; a login
with the right email but wrong password returns the same error kind. -/
theorem login_conflates_unknown_email_and_wrong_password_witness :
    AuthUseCase.Login exampleCfg exampleStore 5 "ghost@x.com" "pw" "ip" "ua"
        [] 0 9 false =
      (Except.error AuthErr.InvalidCredentials,
       exampleStore.appendAudit
         ((newAuditLog 9 0 AuditAction.loginFailed "ip" "ua" 5).addMetadata
           "email" (MetaValue.str "ghost@x.com"))) ∧
    (AuthUseCase.Login exampleCfg exampleStore 5 "a@x.com" "pw" "ip" "ua"
        [] 0 9 false).1 = Except.error AuthErr.InvalidCredentials := by
  have h := login_conflates_unknown_email_and_wrong_password exampleCfg
    exampleStore 5 "ghost@x.com" "pw" "ip" "ua" [] 0 9 false
  have h2 := login_conflates_unknown_email_and_wrong_password exampleCfg
    exampleStore 5 "a@x.com" "pw" "ip" "ua" [] 0 9 false
  exact ⟨h.1 rfl, h2.2 exampleUser rfl rfl rfl⟩

/-- C8: hash round-trip. `GenerateRefreshToken` returns, for any drawn random
bytes, a hash equal to `HashToken` of the returned plaintext (`HashToken` is a
deterministic function, so the equality holds when recomputed independently
later); consequently, after a successful Login the plaintext handed to the
caller can be looked up in the store by its hash. -/
theorem refresh_hash_round_trip
    (rb : List Nat) (cfg : AuthConfig) (st : Store) (now : Nat)
    (email pw ip ua : String) (tid aid : Nat)
    (res : LoginResponse) (st' : Store)
    (h : AuthUseCase.Login cfg st now email pw ip ua rb tid aid false
          = (Except.ok res, st')) :
    (generateRefreshToken rb).2 = hashToken (generateRefreshToken rb).1 ∧
    ∃ tok, st'.findByTokenHash (hashToken res.refreshToken) = some tok ∧
      tok.tokenHash = hashToken res.refreshToken := by
  obtain ⟨hres, u, hfind, hlist, hany⟩ :=
    Login_ok_inv cfg st now email pw ip ua rb tid aid res st' h
  have hkey : hashToken (generateRefreshToken rb).1
      = (generateRefreshToken rb).2 := rfl
  refine ⟨rfl, newRefreshToken tid u.id (generateRefreshToken rb).2
    cfg.refreshTokenTTL now, ?_, ?_⟩
  · rw [Store.findByTokenHash, hlist, hres, hkey]
    have hnone : st.refreshTokens.find? (fun t =>
        t.tokenHash == (generateRefreshToken rb).2) = none := by
      rw [List.find?_eq_none]
      intro x hx
      exact List.any_eq_false.1 hany x hx
    rw [find?_append_of_none _ _ _ hnone]
    rw [List.find?_cons_of_pos]
    show ((generateRefreshToken rb).2 == (generateRefreshToken rb).2) = true
    exact beq_self_eq_true _
  · rw [hres, hkey]
    rfl

/-- Witness for C8: the round-trip identity evaluated on the concrete random
bytes `[1, 2, 3]`, obtained by applying the theorem to a concrete successful
login of the example user. -/
theorem refresh_hash_round_trip_witness :
    (generateRefreshToken [1, 2, 3]).2
      = hashToken (generateRefreshToken [1, 2, 3]).1 := by
  obtain ⟨res, st', h⟩ : ∃ res st',
      AuthUseCase.Login exampleCfg exampleStore 10 "a@x.com" "Str0ng!Pass"
        "ip" "ua" [1, 2, 3] 21 22 false = (Except.ok res, st') := ⟨_, _, rfl⟩
  exact (refresh_hash_round_trip [1, 2, 3] exampleCfg exampleStore 10
    "a@x.com" "Str0ng!Pass" "ip" "ua" 21 22 res st' h).1

/-- C9: immediate re-lock after lazy lock expiry. For a user whose
`lockedUntil` has elapsed (so `IsAccountLocked` reports false even though the
stored `isLocked` flag may still be set) and whose stored counter still
reaches `maxLoginAttempts`, a single further wrong-password login returns
`InvalidCredentials` and persists the user locked again with a fresh
`lockedUntil` a full lock duration in the future — because the counter was
never reset when the previous lock expired. -/
theorem relock_immediately_after_lazy_lock_expiry
    (cfg : AuthConfig) (st : Store) (now : Nat)
    (email pw ip ua : String) (rb : List Nat) (tid aid : Nat)
    (u : UserE) (T : Nat)
    (hfind : st.findByEmail email = some u)
    (hu : u.lockedUntil = some T) (hT : T < now)
    (hcount : cfg.maxLoginAttempts ≤ u.failedLoginAttempts)
    (hwrong : u.verifyPassword pw = false) :
    u.isAccountLocked now = false ∧
    (AuthUseCase.Login cfg st now email pw ip ua rb tid aid false).1
        = Except.error AuthErr.InvalidCredentials ∧
    ∃ u', (AuthUseCase.Login cfg st now email pw ip ua rb tid aid
              false).2.findByEmail email = some u' ∧
      u'.isLocked = true ∧
      u'.lockedUntil = some (now + cfg.accountLockDuration) ∧
      u'.failedLoginAttempts = u.failedLoginAttempts + 1 := by
  have hnl := isAccountLocked_false_of_elapsed u T now hu hT
  have hlogin := Login_wrong_password cfg st now email pw ip ua
    rb tid aid false u hfind hnl hwrong
  have hinc := increment_locks u cfg.maxLoginAttempts cfg.accountLockDuration
    now (Nat.le_succ_of_le hcount)
  obtain ⟨hl', hu', hid', hemail', hcnt'⟩ := hinc
  refine ⟨hnl, by rw [hlogin], u.incrementFailedLoginAttempts
    cfg.maxLoginAttempts cfg.accountLockDuration now, ?_, hl', hu', hcnt'⟩
  rw [hlogin]
  simp only [if_neg (Bool.false_ne_true)]
  rw [findByEmail_appendAudit]
  exact findByEmail_updateUser st email u _ hfind hid' hemail'

/-- Witness for C9: the stale-locked example user (lock expired at 50, counter
at 5) reports unlocked at time 100, yet one wrong-password login at time 100
returns `InvalidCredentials` again (and, by the theorem, re-locks until
1900). -/
theorem relock_immediately_after_lazy_lock_expiry_witness :
    staleLockUser.isAccountLocked 100 = false ∧
    (AuthUseCase.Login exampleCfg staleLockStore 100 "a@x.com" "wrong" "ip"
        "ua" [] 0 0 false).1 = Except.error AuthErr.InvalidCredentials := by
  have h := relock_immediately_after_lazy_lock_expiry exampleCfg staleLockStore
    100 "a@x.com" "wrong" "ip" "ua" [] 0 0 staleLockUser 50 rfl rfl
    (by decide) (by decide) rfl
  exact ⟨h.1, h.2.1⟩

/-- C10: failed-attempt persistence is best-effort. On a wrong-password login
the store error of `userRepo.Update` is discarded: whether or not the counter
update persists (`uf`), Login returns `InvalidCredentials`, and the
caller-visible outcome with a failing update equals the one with a succeeding
update. -/
theorem failed_login_outcome_independent_of_persistence
    (cfg : AuthConfig) (st : Store) (now : Nat)
    (email pw ip ua : String) (rb : List Nat) (tid aid : Nat)
    (u : UserE)
    (hfind : st.findByEmail email = some u)
    (hnl : u.isAccountLocked now = false)
    (hwrong : u.verifyPassword pw = false) :
    (∀ uf : Bool, (AuthUseCase.Login cfg st now email pw ip ua rb tid aid
        uf).1 = Except.error AuthErr.InvalidCredentials) ∧
    (AuthUseCase.Login cfg st now email pw ip ua rb tid aid true).1
      = (AuthUseCase.Login cfg st now email pw ip ua rb tid aid false).1 := by
  constructor
  · intro uf
    rw [Login_wrong_password cfg st now email pw ip ua rb tid aid
      uf u hfind hnl hwrong]
  · rw [Login_wrong_password cfg st now email pw ip ua rb tid aid
      true u hfind hnl hwrong,
      Login_wrong_password cfg st now email pw ip ua rb tid aid
      false u hfind hnl hwrong]

/-- Witness for C10: a wrong-password login against the concrete store returns
`InvalidCredentials` even when the user-row update fails. -/
theorem failed_login_outcome_independent_of_persistence_witness :
    (AuthUseCase.Login exampleCfg exampleStore 5 "a@x.com" "wrong" "ip" "ua"
        [] 0 0 true).1 = Except.error AuthErr.InvalidCredentials :=
  (failed_login_outcome_independent_of_persistence exampleCfg exampleStore 5
    "a@x.com" "wrong" "ip" "ua" [] 0 0 exampleUser rfl rfl rfl).1 true
